import Mathlib

/-!
A verification development for the rule-selection and merge-request
aggregation engine of the gitlab-mcp-server repository.

The TypeScript sources are shallowly embedded as Lean definitions:

* `src/core/utils/codereview/rules.ts` — the rule catalog, project-type
  catalog, project-type detection, rule resolution and specialized
  rule-set getters;
* `src/core/utils/codereview/project-rules.ts` — the project-specific
  configuration store (builtin table, external overlay, lookup);
* `src/core/utils/gitlab-helpers.ts` (and the variant of the same module
  that additionally defines the three specialized collectors) — rule-set
  merging and per-merge-request aggregation;
* the merge-request-context project-type detector of
  `src/core/services/lark.ts`.

JavaScript runtime semantics that the code relies on are modelled
explicitly: `Map.set` keeps the original insertion position of a key and
overwrites its value (so later inserts win on content); object spread
`{...a, ...b}` is key-by-key replacement; `x || y` treats `undefined`,
`null` and the empty string as falsy; `Array.prototype.sort` is a stable
sort (ECMA-262 requires stability).  File-system reads performed by the
configuration loader are abstracted as explicit function parameters
(`exists` / parse results per candidate path).
-/

/-! ## Severities, categories, rules (rules.ts, interface CodeReviewRule) -/

inductive Severity where
  | error
  | warning
  | info
deriving DecidableEq, Repr

inductive Category where
  | security
  | performance
  | maintainability
  | style
  | bestPractice
deriving DecidableEq, Repr

/-- Embeds `interface CodeReviewRule`.  Optional TS fields are `Option`s. -/
structure CodeReviewRule where
  id : String
  title : String
  description : String
  severity : Severity
  category : Category
  applicableFiles : Option (List String)
  projectTypes : Option (List String)
deriving DecidableEq, Repr

/-- Embeds `interface ProjectTypeConfig`. -/
structure ProjectTypeConfig where
  name : String
  description : String
  patterns : List String
  defaultRules : List String
deriving DecidableEq, Repr

/-! ## String helpers (JS `includes`, `endsWith`, char-level) -/

/-- `charsStartWith needle hay`: `needle` is a prefix of `hay`. -/
def charsStartWith : List Char → List Char → Bool
  | [], _ => true
  | _ :: _, [] => false
  | a :: as, b :: bs => a = b && charsStartWith as bs

/-- `charsHasSub needle hay`: `needle` occurs as a contiguous run in `hay`. -/
def charsHasSub (needle : List Char) : List Char → Bool
  | [] => charsStartWith needle []
  | c :: rest => charsStartWith needle (c :: rest) || charsHasSub needle rest

/-- JS `hay.includes(needle)`. -/
def jsIncludes (hay needle : String) : Bool :=
  charsHasSub needle.toList hay.toList

/-- JS `s.endsWith(suffix)`. -/
def jsEndsWith (s suffix : String) : Bool :=
  charsStartWith suffix.toList.reverse s.toList.reverse

/-- JS `s.split(sep)` at the character level, producing the list of
separator-free segments (outer-to-inner order preserved). -/
def splitOnChar (sep : Char) : List Char → List (List Char)
  | [] => [[]]
  | c :: rest =>
    match splitOnChar sep rest with
    | [] => [[]]
    | cur :: parts =>
      if c = sep then [] :: cur :: parts else (c :: cur) :: parts

/-- JS `s.toLowerCase()` (ASCII case folding; every string this code
lower-cases or compares against is ASCII). -/
def jsToLower (s : String) : String :=
  String.mk (s.toList.map Char.toLower)

/-! ## The wildcard-pattern regex of rules.ts

Both `detectProjectType` and `getApplicableRules` compile a pattern via
`new RegExp(pattern.replace(/\*/g, '.*'))` and call `.test(file)`.  In the
patterns occurring in this code base the only regex metacharacters of the
compiled pattern are `.` (any character except newline) — either written
literally in the pattern or introduced by the `*` replacement — so a
compiled pattern is a sequence of three token kinds, matched anywhere in
the subject string (the regex is unanchored). -/

inductive RegexTok where
  | anySeq   -- `.*`: any run of non-newline characters
  | anyChar  -- `.`: one non-newline character
  | lit (c : Char)
deriving DecidableEq, Repr

/-- Tokenize `pattern.replace(/\*/g, '.*')`: each `*` becomes `.*`, each
literal `.` is the any-character metacharacter, all else is literal. -/
def regexTokens (pattern : String) : List RegexTok :=
  pattern.toList.map fun c =>
    if c = '*' then RegexTok.anySeq
    else if c = '.' then RegexTok.anyChar
    else RegexTok.lit c

/-- The suffixes of `s` reachable by deleting a newline-free prefix
(the candidate remainders after `.*` consumes some characters). -/
def seqTails : List Char → List (List Char)
  | [] => [[]]
  | c :: s => (c :: s) :: (if c = '\n' then [] else seqTails s)

/-- Match a token sequence against the beginning of `s` (the match may
leave a remainder, as regex `test` does not anchor the end). -/
def matchTokens : List RegexTok → List Char → Bool
  | [], _ => true
  | .anyChar :: _, [] => false
  | .anyChar :: ts, c :: s => (c ≠ '\n') && matchTokens ts s
  | .lit _ :: _, [] => false
  | .lit a :: ts, c :: s => (a = c) && matchTokens ts s
  | .anySeq :: ts, s => (seqTails s).any fun s' => matchTokens ts s'

/-- All suffixes of `s`: the candidate match start positions. -/
def allTails : List Char → List (List Char)
  | [] => [[]]
  | c :: s => (c :: s) :: allTails s

/-- JS `new RegExp(pattern.replace(/\*/g, '.*')).test(s)`: an unanchored
regex search. -/
def regexTest (pattern s : String) : Bool :=
  (allTails s.toList).any fun s' => matchTokens (regexTokens pattern) s'

/-! ## The rule catalog (rules.ts, `CODE_REVIEW_RULES`)

The TS source is a `Record<string, CodeReviewRule>` object literal whose
iteration order (`Object.values`) is the insertion order of the literal;
it is embedded as a list in source order.  Every key of the literal
equals the `id` field of its value. -/

def CODE_REVIEW_RULES : List CodeReviewRule := [
  { id := "ts-strict-mode", title := "TypeScript Strict Mode",
    description := "Ensure TypeScript strict mode is enabled for better type safety",
    severity := .warning, category := .bestPractice,
    applicableFiles := some ["*.ts", "*.tsx"],
    projectTypes := some ["typescript", "react", "node"] },
  { id := "no-any-type", title := "Avoid any Type",
    description := "Avoid using \"any\" type, prefer specific types or unknown",
    severity := .warning, category := .maintainability,
    applicableFiles := some ["*.ts", "*.tsx"],
    projectTypes := some ["typescript", "react", "node"] },
  { id := "async-await-best-practice", title := "Async/Await Best Practices",
    description := "Use proper error handling with async/await, avoid mixing with .then()",
    severity := .warning, category := .bestPractice,
    applicableFiles := some ["*.ts", "*.tsx", "*.js", "*.jsx"],
    projectTypes := some ["typescript", "javascript", "react", "node"] },
  { id := "environment-variables", title := "Environment Variables Validation",
    description := "Validate environment variables at startup and provide defaults",
    severity := .error, category := .security,
    applicableFiles := some ["*.ts", "*.js"],
    projectTypes := some ["node", "backend"] },
  { id := "react-hooks-dependencies", title := "React Hooks Dependencies",
    description := "Ensure all dependencies are included in useEffect, useMemo, useCallback dependency arrays",
    severity := .error, category := .bestPractice,
    applicableFiles := some ["*.tsx", "*.jsx"],
    projectTypes := some ["react"] },
  { id := "react-key-prop", title := "React Key Prop",
    description := "Provide unique key prop for list items, avoid using array index",
    severity := .warning, category := .performance,
    applicableFiles := some ["*.tsx", "*.jsx"],
    projectTypes := some ["react"] },
  { id := "react-component-naming", title := "React Component Naming",
    description := "Use PascalCase for React components and meaningful names",
    severity := .info, category := .style,
    applicableFiles := some ["*.tsx", "*.jsx"],
    projectTypes := some ["react"] },
  { id := "go-error-handling", title := "Go Error Handling",
    description := "Always handle errors explicitly, avoid ignoring them with _",
    severity := .error, category := .bestPractice,
    applicableFiles := some ["*.go"],
    projectTypes := some ["go"] },
  { id := "go-context-usage", title := "Go Context Usage",
    description := "Pass context as first parameter in functions that need it",
    severity := .warning, category := .bestPractice,
    applicableFiles := some ["*.go"],
    projectTypes := some ["go"] },
  { id := "go-interface-naming", title := "Go Interface Naming",
    description := "Interface names should end with -er when possible (e.g., Reader, Writer)",
    severity := .info, category := .style,
    applicableFiles := some ["*.go"],
    projectTypes := some ["go"] },
  { id := "python-type-hints", title := "Python Type Hints",
    description := "Use type hints for function parameters and return values",
    severity := .warning, category := .maintainability,
    applicableFiles := some ["*.py"],
    projectTypes := some ["python"] },
  { id := "python-docstrings", title := "Python Docstrings",
    description := "Provide docstrings for public functions and classes",
    severity := .info, category := .maintainability,
    applicableFiles := some ["*.py"],
    projectTypes := some ["python"] },
  { id := "python-exception-handling", title := "Python Exception Handling",
    description := "Catch specific exceptions instead of bare except clauses",
    severity := .warning, category := .bestPractice,
    applicableFiles := some ["*.py"],
    projectTypes := some ["python"] },
  { id := "rust-error-handling", title := "Rust Error Handling",
    description := "Use Result<T, E> for recoverable errors and proper error propagation with ?",
    severity := .error, category := .bestPractice,
    applicableFiles := some ["*.rs"],
    projectTypes := some ["rust"] },
  { id := "rust-option-handling", title := "Rust Option Handling",
    description := "Prefer pattern matching or combinator methods over unwrap() for Option types",
    severity := .warning, category := .bestPractice,
    applicableFiles := some ["*.rs"],
    projectTypes := some ["rust"] },
  { id := "rust-ownership-borrowing", title := "Rust Ownership and Borrowing",
    description := "Use borrowing (&) instead of moving when possible, avoid unnecessary clones",
    severity := .warning, category := .performance,
    applicableFiles := some ["*.rs"],
    projectTypes := some ["rust"] },
  { id := "rust-lifetime-management", title := "Rust Lifetime Management",
    description := "Use explicit lifetime annotations when necessary and prefer static lifetimes for constants",
    severity := .warning, category := .maintainability,
    applicableFiles := some ["*.rs"],
    projectTypes := some ["rust"] },
  { id := "rust-memory-safety", title := "Rust Memory Safety",
    description := "Avoid unsafe code unless absolutely necessary, document unsafe blocks thoroughly",
    severity := .error, category := .security,
    applicableFiles := some ["*.rs"],
    projectTypes := some ["rust"] },
  { id := "rust-concurrency", title := "Rust Concurrency Safety",
    description := "Use thread-safe types (Arc, Mutex) for shared data, prefer channels for communication",
    severity := .warning, category := .security,
    applicableFiles := some ["*.rs"],
    projectTypes := some ["rust"] },
  { id := "rust-performance-clones", title := "Rust Performance - Avoid Unnecessary Clones",
    description := "Minimize clone() calls, use references or move semantics appropriately",
    severity := .warning, category := .performance,
    applicableFiles := some ["*.rs"],
    projectTypes := some ["rust"] },
  { id := "rust-naming-conventions", title := "Rust Naming Conventions",
    description := "Use snake_case for functions/variables, PascalCase for types, SCREAMING_SNAKE_CASE for constants",
    severity := .info, category := .style,
    applicableFiles := some ["*.rs"],
    projectTypes := some ["rust"] },
  { id := "rust-module-organization", title := "Rust Module Organization",
    description := "Organize code into logical modules, use pub carefully for API design",
    severity := .info, category := .maintainability,
    applicableFiles := some ["*.rs"],
    projectTypes := some ["rust"] },
  { id := "rust-clippy-lints", title := "Rust Clippy Lints",
    description := "Address Clippy warnings and suggestions, use #[allow] sparingly with justification",
    severity := .warning, category := .bestPractice,
    applicableFiles := some ["*.rs"],
    projectTypes := some ["rust"] },
  { id := "rust-documentation", title := "Rust Documentation",
    description := "Provide documentation comments (///) for public APIs, include examples in doc tests",
    severity := .info, category := .maintainability,
    applicableFiles := some ["*.rs"],
    projectTypes := some ["rust"] },
  { id := "rust-testing", title := "Rust Testing",
    description := "Write unit tests with #[test], integration tests in tests/ directory, use #[cfg(test)]",
    severity := .warning, category := .bestPractice,
    applicableFiles := some ["*.rs"],
    projectTypes := some ["rust"] },
  { id := "sh-shebang", title := "Shell Script Shebang",
    description := "Always include shebang (#!/bin/bash or #!/bin/sh) at the top of shell scripts",
    severity := .warning, category := .bestPractice,
    applicableFiles := some ["*.sh", "*.bash"],
    projectTypes := some ["sh"] },
  { id := "sh-error-handling", title := "Shell Script Error Handling",
    description := "Use \"set -e\" to exit on error, \"set -u\" for undefined variables, and proper error checking",
    severity := .error, category := .bestPractice,
    applicableFiles := some ["*.sh", "*.bash"],
    projectTypes := some ["sh"] },
  { id := "sh-variable-quoting", title := "Shell Variable Quoting",
    description := "Always quote variables to prevent word splitting and globbing: \"$VAR\" not $VAR",
    severity := .warning, category := .security,
    applicableFiles := some ["*.sh", "*.bash"],
    projectTypes := some ["sh"] },
  { id := "sh-command-substitution", title := "Shell Command Substitution",
    description := "Use $(command) instead of `command` for better readability and nesting",
    severity := .info, category := .style,
    applicableFiles := some ["*.sh", "*.bash"],
    projectTypes := some ["sh"] },
  { id := "sh-function-naming", title := "Shell Function Naming",
    description := "Use snake_case for function names and avoid spaces in function declarations",
    severity := .info, category := .style,
    applicableFiles := some ["*.sh", "*.bash"],
    projectTypes := some ["sh"] },
  { id := "sh-array-handling", title := "Shell Array Handling",
    description := "Use \"$\x7barray[@]\x7d\" to properly expand arrays, avoid unquoted array expansions",
    severity := .warning, category := .bestPractice,
    applicableFiles := some ["*.sh", "*.bash"],
    projectTypes := some ["sh"] },
  { id := "sh-portability", title := "Shell Script Portability",
    description := "Avoid bash-specific features if using #!/bin/sh, use POSIX-compliant syntax",
    severity := .warning, category := .maintainability,
    applicableFiles := some ["*.sh"],
    projectTypes := some ["sh"] },
  { id := "sh-debugging", title := "Shell Script Debugging",
    description := "Consider using \"set -x\" for debugging, but remove or make conditional in production",
    severity := .info, category := .bestPractice,
    applicableFiles := some ["*.sh", "*.bash"],
    projectTypes := some ["sh"] },
  { id := "no-hardcoded-secrets", title := "No Hardcoded Secrets",
    description := "Avoid hardcoding API keys, passwords, or sensitive data in source code",
    severity := .error, category := .security,
    applicableFiles := some ["*"],
    projectTypes := some ["*"] },
  { id := "input-validation", title := "Input Validation",
    description := "Validate and sanitize all user inputs before processing",
    severity := .error, category := .security,
    applicableFiles := some ["*"],
    projectTypes := some ["*"] },
  { id := "code-style-consistent-naming", title := "Consistent Naming Convention",
    description := "Use consistent naming conventions throughout the codebase (camelCase, PascalCase, snake_case)",
    severity := .warning, category := .style,
    applicableFiles := some ["*"],
    projectTypes := some ["*"] },
  { id := "code-style-function-length", title := "Function Length Control",
    description := "Keep functions concise and focused. Consider splitting functions longer than 50 lines",
    severity := .info, category := .style,
    applicableFiles := some ["*"],
    projectTypes := some ["*"] },
  { id := "code-style-comments-quality", title := "High-Quality Comments",
    description := "Write meaningful comments that explain \"why\" not \"what\". Remove outdated comments",
    severity := .info, category := .style,
    applicableFiles := some ["*"],
    projectTypes := some ["*"] },
  { id := "code-style-magic-numbers", title := "No Magic Numbers",
    description := "Replace magic numbers with named constants or configuration values",
    severity := .warning, category := .style,
    applicableFiles := some ["*"],
    projectTypes := some ["*"] },
  { id := "code-style-code-duplication", title := "Avoid Code Duplication",
    description := "Extract common code into reusable functions or modules (DRY principle)",
    severity := .warning, category := .style,
    applicableFiles := some ["*"],
    projectTypes := some ["*"] },
  { id := "code-style-error-messages", title := "Meaningful Error Messages",
    description := "Provide clear, actionable error messages that help users understand and fix issues",
    severity := .info, category := .style,
    applicableFiles := some ["*"],
    projectTypes := some ["*"] },
  { id := "code-style-api-design", title := "Consistent API Design",
    description := "Follow consistent patterns for API design, parameter ordering, and return values",
    severity := .warning, category := .style,
    applicableFiles := some ["*"],
    projectTypes := some ["*"] },
  { id := "code-style-imports-organization", title := "Organized Imports",
    description := "Group and sort imports logically (standard library, third-party, local)",
    severity := .info, category := .style,
    applicableFiles := some ["*.js", "*.ts", "*.jsx", "*.tsx", "*.py", "*.go", "*.rs"],
    projectTypes := some ["*"] },
  { id := "security-authentication", title := "Proper Authentication",
    description := "Implement proper authentication mechanisms and avoid weak authentication methods",
    severity := .error, category := .security,
    applicableFiles := some ["*"],
    projectTypes := some ["*"] },
  { id := "security-authorization", title := "Authorization Checks",
    description := "Verify user permissions before accessing resources or performing actions",
    severity := .error, category := .security,
    applicableFiles := some ["*"],
    projectTypes := some ["*"] },
  { id := "security-data-encryption", title := "Data Encryption",
    description := "Encrypt sensitive data at rest and in transit using strong encryption algorithms",
    severity := .error, category := .security,
    applicableFiles := some ["*"],
    projectTypes := some ["*"] },
  { id := "security-session-management", title := "Secure Session Management",
    description := "Implement secure session handling with proper timeouts and invalidation",
    severity := .error, category := .security,
    applicableFiles := some ["*"],
    projectTypes := some ["*"] },
  { id := "security-logging-monitoring", title := "Security Logging",
    description := "Log security events and monitor for suspicious activities",
    severity := .warning, category := .security,
    applicableFiles := some ["*"],
    projectTypes := some ["*"] },
  { id := "security-cors-configuration", title := "CORS Configuration",
    description := "Configure CORS headers properly to prevent unauthorized cross-origin requests",
    severity := .warning, category := .security,
    applicableFiles := some ["*"],
    projectTypes := some ["backend", "node", "web"] },
  { id := "security-rate-limiting", title := "Rate Limiting",
    description := "Implement rate limiting to prevent abuse and DoS attacks",
    severity := .warning, category := .security,
    applicableFiles := some ["*"],
    projectTypes := some ["backend", "node", "web"] },
  { id := "security-error-handling", title := "Secure Error Handling",
    description := "Avoid exposing sensitive information in error messages",
    severity := .error, category := .security,
    applicableFiles := some ["*"],
    projectTypes := some ["*"] },
  { id := "security-dependency-scanning", title := "Dependency Security",
    description := "Regularly scan and update dependencies for known vulnerabilities",
    severity := .warning, category := .security,
    applicableFiles := some ["package.json", "requirements.txt", "go.mod", "Cargo.toml"],
    projectTypes := some ["*"] },
  { id := "security-file-upload", title := "Secure File Upload",
    description := "Validate file types, sizes, and scan for malware in file uploads",
    severity := .error, category := .security,
    applicableFiles := some ["*"],
    projectTypes := some ["*"] },
  { id := "security-http-headers", title := "Security HTTP Headers",
    description := "Include security headers like CSP, HSTS, X-Frame-Options, etc.",
    severity := .warning, category := .security,
    applicableFiles := some ["*"],
    projectTypes := some ["backend", "web"] },
  { id := "security-password-policy", title := "Password Security",
    description := "Implement strong password policies and secure password storage",
    severity := .error, category := .security,
    applicableFiles := some ["*"],
    projectTypes := some ["*"] },
  { id := "professional-network-request-restriction", title := "Network Request Restriction",
    description := "禁止或限制网络请求，采用白名单方式防止助记词、私钥传播到网上",
    severity := .error, category := .security,
    applicableFiles := some ["*"],
    projectTypes := some ["*"] },
  { id := "professional-logging-prohibition", title := "Logging Prohibition",
    description := "禁止打印日志，避免助记词、私钥的输出与泄露",
    severity := .error, category := .security,
    applicableFiles := some ["*"],
    projectTypes := some ["*"] },
  { id := "professional-file-write-prohibition", title := "File Write Prohibition",
    description := "禁止本地写文件行为，防止助记词、私钥写入到本地文件中",
    severity := .error, category := .security,
    applicableFiles := some ["*"],
    projectTypes := some ["*"] },
  { id := "professional-signature-data-leakage", title := "Signature Data Leakage Prevention",
    description := "防止助记词、私钥被替换成签名结果或附加到签名结果里泄露",
    severity := .error, category := .security,
    applicableFiles := some ["*"],
    projectTypes := some ["*"] },
  { id := "professional-error-sanitization", title := "Error Message Sanitization",
    description := "返回错误不能是原生错误，需要脱敏后才能给出",
    severity := .error, category := .security,
    applicableFiles := some ["*"],
    projectTypes := some ["*"] },
  { id := "professional-sensitive-hardcode-detection", title := "Sensitive Information Hardcode Detection",
    description := "检测硬编码的敏感信息（API 密钥、密码、token、IP 地址、域名）",
    severity := .error, category := .security,
    applicableFiles := some ["*"],
    projectTypes := some ["*"] },
  { id := "professional-keyword-blacklist", title := "Keyword Blacklist Check",
    description := "关键字屏蔽：unsafe、reflect、cat、replace 等危险关键字",
    severity := .error, category := .security,
    applicableFiles := some ["*"],
    projectTypes := some ["*"] },
  { id := "professional-gomod-replace-prohibition", title := "Go.mod Replace Prohibition",
    description := "master 分支go.mod 中禁止使用 replace 关键字，防止安全模块失效",
    severity := .error, category := .security,
    applicableFiles := some ["go.mod", "go.sum"],
    projectTypes := some ["go"] },
  { id := "professional-dependency-security-scan", title := "Dependency Security Scan",
    description := "检测依赖库漏洞或版本变更，防止引入有安全风险的依赖",
    severity := .error, category := .security,
    applicableFiles := some ["go.mod", "package.json", "requirements.txt", "Cargo.toml"],
    projectTypes := some ["*"] },
  { id := "professional-new-dependency-detection", title := "New Dependency Detection",
    description := "检测 MR 中新增的依赖库，确保新依赖的安全性",
    severity := .warning, category := .security,
    applicableFiles := some ["go.mod", "package.json", "requirements.txt", "Cargo.toml"],
    projectTypes := some ["*"] },
  { id := "professional-reflection-dynamic-call-detection", title := "Reflection and Dynamic Call Detection",
    description := "反射、动态调用检测，防止通过反射绕过安全检查",
    severity := .error, category := .security,
    applicableFiles := some ["*"],
    projectTypes := some ["*"] },
  { id := "sql-injection-prevention", title := "SQL Injection Prevention",
    description := "Use parameterized queries or ORM methods to prevent SQL injection",
    severity := .error, category := .security,
    applicableFiles := some ["*"],
    projectTypes := some ["backend", "database"] },
  { id := "large-file-handling", title := "Large File Handling",
    description := "Use streaming for large file operations instead of loading into memory",
    severity := .warning, category := .performance,
    applicableFiles := some ["*"],
    projectTypes := some ["backend", "node"] },
  { id := "database-n-plus-one", title := "Database N+1 Query Problem",
    description := "Avoid N+1 query problems by using eager loading or batch queries",
    severity := .warning, category := .performance,
    applicableFiles := some ["*"],
    projectTypes := some ["backend", "database"] }
]

/-! ## The project-type catalog (rules.ts, `PROJECT_TYPES`) -/

def PROJECT_TYPES : List (String × ProjectTypeConfig) := [
  ("typescript",
   { name := "TypeScript", description := "TypeScript project",
     patterns := ["tsconfig.json", "*.ts", "*.tsx"],
     defaultRules := ["ts-strict-mode", "no-any-type", "async-await-best-practice",
       "no-hardcoded-secrets", "input-validation"] }),
  ("javascript",
   { name := "JavaScript", description := "JavaScript project",
     patterns := ["package.json", "*.js", "*.jsx"],
     defaultRules := ["async-await-best-practice", "no-hardcoded-secrets", "input-validation"] }),
  ("react",
   { name := "React", description := "React application",
     patterns := ["package.json", "src/**/*.tsx", "src/**/*.jsx", "react"],
     defaultRules := ["ts-strict-mode", "no-any-type", "react-hooks-dependencies",
       "react-key-prop", "react-component-naming", "no-hardcoded-secrets"] }),
  ("node",
   { name := "Node.js", description := "Node.js application",
     patterns := ["package.json", "server.js", "app.js", "index.js"],
     defaultRules := ["async-await-best-practice", "environment-variables",
       "no-hardcoded-secrets", "input-validation", "large-file-handling"] }),
  ("go",
   { name := "Go", description := "Go application",
     patterns := ["go.mod", "go.sum", "*.go"],
     defaultRules := ["go-error-handling", "go-context-usage", "go-interface-naming",
       "no-hardcoded-secrets", "input-validation"] }),
  ("python",
   { name := "Python", description := "Python application",
     patterns := ["requirements.txt", "pyproject.toml", "*.py"],
     defaultRules := ["python-type-hints", "python-docstrings", "python-exception-handling",
       "no-hardcoded-secrets", "input-validation"] }),
  ("rust",
   { name := "Rust", description := "Rust application",
     patterns := ["Cargo.toml", "Cargo.lock", "*.rs", "src/main.rs", "src/lib.rs"],
     defaultRules := ["rust-error-handling", "rust-option-handling", "rust-ownership-borrowing",
       "rust-memory-safety", "rust-concurrency", "rust-performance-clones", "rust-clippy-lints",
       "rust-testing", "no-hardcoded-secrets", "input-validation"] }),
  ("sh",
   { name := "Shell Script", description := "Shell/Bash scripting",
     patterns := ["*.sh", "*.bash", "*.zsh", "bashrc", "zshrc"],
     defaultRules := ["sh-shebang", "sh-error-handling", "sh-variable-quoting",
       "sh-command-substitution", "no-hardcoded-secrets", "input-validation"] }),
  ("backend",
   { name := "Backend", description := "Backend application",
     patterns := ["api", "server", "backend"],
     defaultRules := ["environment-variables", "no-hardcoded-secrets", "input-validation",
       "sql-injection-prevention", "large-file-handling", "database-n-plus-one"] }),
  ("database",
   { name := "Database", description := "Database related code",
     patterns := ["*.sql", "migrations", "schema"],
     defaultRules := ["sql-injection-prevention", "database-n-plus-one"] })
]

/-! ## rules.ts functions -/

/-- One pattern of `detectProjectType` tested against one file:
`pattern.includes('*') ? regex.test(file) : file.includes(pattern)`. -/
def patternMatchesFile (pattern file : String) : Bool :=
  if jsIncludes pattern "*" then regexTest pattern file
  else jsIncludes file pattern

/-- Embeds `detectProjectType(filePaths, projectStructure?)` of rules.ts.
The optional second TS parameter is unused by the source.  A type is
detected iff some of its patterns matches some file path; the result
keeps the `PROJECT_TYPES` table order.  Note there is no fallback for an
empty result. -/
def detectProjectType (filePaths : List String) : List String :=
  (PROJECT_TYPES.filter fun tc =>
    tc.2.patterns.any fun pattern => filePaths.any fun file =>
      patternMatchesFile pattern file).map Prod.fst

/-- `appliesToProjectType` test of `getApplicableRules`:
`rule.projectTypes?.some(pt => pt === '*' || projectTypes.includes(pt))
 || rule.projectTypes?.length === 0`.
A rule without a `projectTypes` field fails both disjuncts (JS:
`undefined || undefined === 0` is falsy). -/
def appliesToProjectType (rule : CodeReviewRule) (projectTypes : List String) : Bool :=
  match rule.projectTypes with
  | some pts => (pts.any fun pt => decide (pt = "*") || decide (pt ∈ projectTypes))
      || decide (pts = [])
  | none => false

/-- `appliesToFile` test of `getApplicableRules`.  In the last branch the
pattern contains no `*`, so the source `pattern.replace('*', '')` is the
pattern itself. -/
def appliesToFile (rule : CodeReviewRule) (fileName : String) : Bool :=
  match rule.applicableFiles with
  | some pats => pats.any fun pattern =>
      if pattern = "*" then true
      else if jsIncludes pattern "*" then regexTest pattern fileName
      else jsEndsWith fileName pattern
  | none => false

/-- Severity ordinal used by the final sort of `getApplicableRules`:
`{ error: 0, warning: 1, info: 2 }`. -/
def severityOrder : Severity → Nat
  | .error => 0
  | .warning => 1
  | .info => 2

/-- The comparator `severityOrder[a.severity] - severityOrder[b.severity]`
sorts ascending by ordinal; ECMA-262 `Array.prototype.sort` is stable, so
the call is modelled by a stable sort (insertion sort) on this ordering. -/
def ruleSevLE (a b : CodeReviewRule) : Prop :=
  severityOrder a.severity ≤ severityOrder b.severity

instance : DecidableRel ruleSevLE := fun a b =>
  inferInstanceAs (Decidable (severityOrder a.severity ≤ severityOrder b.severity))

instance : IsTotal CodeReviewRule ruleSevLE :=
  ⟨fun _ _ => Nat.le_total _ _⟩

instance : IsTrans CodeReviewRule ruleSevLE :=
  ⟨fun _ _ _ => Nat.le_trans⟩

/-- The filter loop of `getApplicableRules` before sorting. -/
def applicableCandidates (fileName : String) (projectTypes : List String)
    (includeUniversal : Bool) : List CodeReviewRule :=
  CODE_REVIEW_RULES.filter fun rule =>
    appliesToProjectType rule projectTypes
      && (appliesToFile rule fileName || includeUniversal)

/-- Embeds `getApplicableRules(fileName, projectTypes, includeUniversal)`. -/
def getApplicableRules (fileName : String) (projectTypes : List String)
    (includeUniversal : Bool) : List CodeReviewRule :=
  (applicableCandidates fileName projectTypes includeUniversal).insertionSort ruleSevLE

/-- Order-preserving insertion into a JS `Set<string>` (iteration order of
a JS Set is insertion order; re-adding an element keeps its position). -/
def addToSet (acc : List String) (x : String) : List String :=
  if x ∈ acc then acc else acc ++ [x]

/-- Embeds `getDefaultRulesForProjectTypes`: collect each configured
default-rule id (deduplicated, first-seen order), then resolve ids in the
catalog, silently dropping unknown ids (`.filter(Boolean)`). -/
def getDefaultRulesForProjectTypes (projectTypes : List String) : List CodeReviewRule :=
  let ruleIds := projectTypes.foldl (fun acc pt =>
    match PROJECT_TYPES.find? (fun tc => tc.1 = pt) with
    | some tc => tc.2.defaultRules.foldl addToSet acc
    | none => acc) []
  ruleIds.filterMap fun ruleId => CODE_REVIEW_RULES.find? fun r => r.id = ruleId

/-- Shared project-type filter of the three specialized getters:
`rule.projectTypes?.some(pt => pt === '*' || projectTypes.includes(pt)) ||
 rule.projectTypes?.length === 0` (same as `appliesToProjectType`). -/
def typeApplicableFilter (projectTypes : List String) (rules : List CodeReviewRule) :
    List CodeReviewRule :=
  rules.filter fun rule => appliesToProjectType rule projectTypes

/-- Embeds `getCodeStyleOptimizationRules`. -/
def getCodeStyleOptimizationRules (projectTypes : List String) : List CodeReviewRule :=
  let styleRules := CODE_REVIEW_RULES.filter fun rule => decide (rule.category = .style)
  let bestPracticeRules := CODE_REVIEW_RULES.filter fun rule =>
    decide (rule.category = .bestPractice)
      && (jsIncludes rule.id "naming" || jsIncludes rule.id "duplication"
          || jsIncludes rule.id "function" || jsIncludes rule.id "api")
  typeApplicableFilter projectTypes (styleRules ++ bestPracticeRules)

/-- Embeds `getGeneralSecurityScanRules`. -/
def getGeneralSecurityScanRules (projectTypes : List String) : List CodeReviewRule :=
  let securityRules := CODE_REVIEW_RULES.filter fun rule => decide (rule.category = .security)
  typeApplicableFilter projectTypes securityRules

/-- Embeds `getProfessionalSecurityScanRules`. -/
def getProfessionalSecurityScanRules (projectTypes : List String)
    (customRules : Option (List CodeReviewRule)) : List CodeReviewRule :=
  let professionalRules := CODE_REVIEW_RULES.filter fun rule =>
    charsStartWith "professional-".toList rule.id.toList && decide (rule.category = .security)
  let applicableRules := typeApplicableFilter projectTypes professionalRules
  match customRules with
  | some cs =>
      if cs.length > 0 then
        applicableRules ++ cs.filter fun rule => decide (rule.category = .security)
      else applicableRules
  | none => applicableRules

/-! ## mergeRuleSets (gitlab-helpers.ts)

`mergeRuleSets` inserts every rule of every argument set into a JS
`Map<string, CodeReviewRule>` keyed by `rule.id` and returns the values.
`Map.set` on a present key overwrites the value but keeps the original
insertion position of the key; `Map.values()` iterates keys in insertion
order.  A JS Map is modelled as an association list with that `set`. -/

def mapSet (m : List (String × CodeReviewRule)) (k : String) (v : CodeReviewRule) :
    List (String × CodeReviewRule) :=
  if k ∈ m.map Prod.fst then
    m.map fun p => if p.1 = k then (k, v) else p
  else m ++ [(k, v)]

/-- Insert a list of rules into the map, in order. -/
def insertRules (m : List (String × CodeReviewRule)) (rs : List CodeReviewRule) :
    List (String × CodeReviewRule) :=
  rs.foldl (fun m r => mapSet m r.id r) m

/-- Embeds `mergeRuleSets(...ruleSets)` (variadic TS; list of lists here). -/
def mergeRuleSets (ruleSets : List (List CodeReviewRule)) : List CodeReviewRule :=
  (ruleSets.foldl insertRules []).map Prod.snd

/-! ## Project-specific configuration (project-rules.ts) -/

/-- TS `string | number` project identifiers (`projectIdentifier` fields,
`getProjectSpecificRules` argument). -/
inductive ProjId where
  | str (s : String)
  | num (n : Nat)
deriving DecidableEq, Repr

/-- JS `String(projectIdentifier)`. -/
def ProjId.toKey : ProjId → String
  | .str s => s
  | .num n => toString n

/-- Embeds `interface ProjectSpecificConfig`. -/
structure ProjectSpecificConfig where
  projectIdentifier : ProjId
  projectName : String
  description : Option String
  rules : List CodeReviewRule
  enableDefaultRules : Option Bool
  excludeDefaultRules : Option (List String)
  additionalProjectTypes : Option (List String)
deriving DecidableEq, Repr

/-- Embeds `BUILTIN_PROJECT_RULES` (the four builtin example configs). -/
def BUILTIN_PROJECT_RULES : List (String × ProjectSpecificConfig) := [
  ("backend/api-service",
   { projectIdentifier := .str "backend/api-service",
     projectName := "API Service",
     description := some "后端API服务项目",
     enableDefaultRules := some true,
     excludeDefaultRules := some ["no-any-type"],
     additionalProjectTypes := some ["backend", "node"],
     rules := [
       { id := "api-rate-limiting", title := "API Rate Limiting",
         description := "确保所有公开API端点都有速率限制保护",
         severity := .error, category := .security,
         applicableFiles := some ["**/controllers/*.js", "**/routes/*.js"],
         projectTypes := some ["backend"] },
       { id := "api-auth-check", title := "API Authentication Check",
         description := "检查所有需要认证的端点是否正确使用了认证中间件",
         severity := .error, category := .security,
         applicableFiles := some ["**/routes/*.js", "**/middleware/*.js"],
         projectTypes := some ["backend"] },
       { id := "api-response-format", title := "API Response Format",
         description := "保持API响应格式一致，使用标准的响应结构",
         severity := .warning, category := .maintainability,
         applicableFiles := some ["**/controllers/*.js"],
         projectTypes := some ["backend"] },
       { id := "database-transaction", title := "Database Transaction Management",
         description := "涉及多个数据库操作时必须使用事务",
         severity := .error, category := .bestPractice,
         applicableFiles := some ["**/services/*.js", "**/models/*.js"],
         projectTypes := some ["backend"] }] }),
  ("frontend/web-app",
   { projectIdentifier := .str "frontend/web-app",
     projectName := "Web Application",
     description := some "前端Web应用项目",
     enableDefaultRules := some true,
     excludeDefaultRules := none,
     additionalProjectTypes := some ["react", "typescript"],
     rules := [
       { id := "component-folder-structure", title := "Component Folder Structure",
         description := "组件应该有统一的文件夹结构：Component/index.tsx, Component/styles.ts, Component/types.ts",
         severity := .warning, category := .maintainability,
         applicableFiles := some ["**/components/**/*.tsx"],
         projectTypes := some ["react"] },
       { id := "use-custom-hooks", title := "Use Custom Hooks",
         description := "复杂的状态逻辑应该提取到自定义Hook中",
         severity := .info, category := .bestPractice,
         applicableFiles := some ["**/components/**/*.tsx", "**/hooks/*.ts"],
         projectTypes := some ["react"] },
       { id := "accessibility-requirements", title := "Accessibility Requirements",
         description := "确保所有交互元素都有适当的ARIA标签和键盘支持",
         severity := .warning, category := .bestPractice,
         applicableFiles := some ["**/components/**/*.tsx"],
         projectTypes := some ["react"] }] }),
  ("microservices/payment-service",
   { projectIdentifier := .str "microservices/payment-service",
     projectName := "Payment Service",
     description := some "支付微服务项目",
     enableDefaultRules := some true,
     excludeDefaultRules := none,
     additionalProjectTypes := some ["go", "backend"],
     rules := [
       { id := "payment-security-audit", title := "Payment Security Audit",
         description := "支付相关代码必须进行严格的安全审计，包括加密、日志脱敏等",
         severity := .error, category := .security,
         applicableFiles := some ["**/payment/*.go", "**/transaction/*.go"],
         projectTypes := some ["go"] },
       { id := "payment-idempotency", title := "Payment Idempotency",
         description := "所有支付操作必须实现幂等性",
         severity := .error, category := .bestPractice,
         applicableFiles := some ["**/handlers/*.go", "**/services/*.go"],
         projectTypes := some ["go"] },
       { id := "payment-logging", title := "Payment Transaction Logging",
         description := "所有支付交易必须有完整的日志记录，但要注意敏感信息脱敏",
         severity := .error, category := .security,
         applicableFiles := some ["**/payment/*.go", "**/logger/*.go"],
         projectTypes := some ["go"] }] }),
  ("blockchain/smart-contracts",
   { projectIdentifier := .str "blockchain/smart-contracts",
     projectName := "Smart Contracts",
     description := some "智能合约项目",
     enableDefaultRules := some false,
     excludeDefaultRules := none,
     additionalProjectTypes := none,
     rules := [
       { id := "reentrancy-guard", title := "Reentrancy Guard",
         description := "确保所有外部调用都有重入保护",
         severity := .error, category := .security,
         applicableFiles := some ["*.sol"],
         projectTypes := some ["solidity"] },
       { id := "overflow-protection", title := "Integer Overflow Protection",
         description := "使用 SafeMath 或 Solidity 0.8+ 的内置溢出保护",
         severity := .error, category := .security,
         applicableFiles := some ["*.sol"],
         projectTypes := some ["solidity"] },
       { id := "gas-optimization", title := "Gas Optimization",
         description := "优化存储使用和循环操作以减少 gas 消耗",
         severity := .warning, category := .performance,
         applicableFiles := some ["*.sol"],
         projectTypes := some ["solidity"] }] })
]

/-- The three candidate configuration paths of `loadExternalRules`
(relative to the process working directory, which is left implicit). -/
def configPaths : List String :=
  ["project-rules.config.json", "config/project-rules.json", ".mcp/project-rules.json"]

/-- Result of `JSON.parse` on a configuration document: a `projects`
record may be present or absent (`config.projects || {}`). -/
structure ExternalDoc where
  projects : Option (List (String × ProjectSpecificConfig))
deriving DecidableEq, Repr

/-- Embeds `loadExternalRules`.  The file system is abstracted by
`fsExists` (does a candidate path exist) and `fsParse` (what
`JSON.parse(readFileSync(path))` yields: `none` models a read/parse
error, which the source logs and then lets the `for` loop continue to
the next candidate).  When no candidate succeeds the loop falls through
and returns the empty record. -/
def loadExternalRules (fsExists : String → Bool) (fsParse : String → Option ExternalDoc) :
    List (String × ProjectSpecificConfig) :=
  go configPaths
where
  go : List String → List (String × ProjectSpecificConfig)
    | [] => []
    | p :: rest =>
      if fsExists p then
        match fsParse p with
        | some doc => doc.projects.getD []
        | none => go rest
      else go rest

/-- JS object spread `{...base, ...overlay}` on records modelled as
association lists: keys of `base` keep their position, an overlay value
replaces the value of an existing key, new overlay keys are appended in
order. -/
def spreadStep (acc : List (String × ProjectSpecificConfig))
    (kv : String × ProjectSpecificConfig) : List (String × ProjectSpecificConfig) :=
  if kv.1 ∈ acc.map Prod.fst then
    acc.map fun p => if p.1 = kv.1 then kv else p
  else acc ++ [kv]

def recordSpread (base overlay : List (String × ProjectSpecificConfig)) :
    List (String × ProjectSpecificConfig) :=
  overlay.foldl spreadStep base

/-- Embeds `PROJECT_SPECIFIC_RULES = {...BUILTIN_PROJECT_RULES,
...loadExternalRules()}`, as a function of the abstracted file system. -/
def PROJECT_SPECIFIC_RULES (fsExists : String → Bool)
    (fsParse : String → Option ExternalDoc) : List (String × ProjectSpecificConfig) :=
  recordSpread BUILTIN_PROJECT_RULES (loadExternalRules fsExists fsParse)

/-- Embeds `getProjectSpecificRules(projectIdentifier)`, parameterized by
the effective table: direct key lookup via `String(projectIdentifier)`,
then a linear scan comparing each `projectIdentifier` field. -/
def getProjectSpecificRules (table : List (String × ProjectSpecificConfig))
    (projectIdentifier : ProjId) : Option ProjectSpecificConfig :=
  match table.find? (fun p => p.1 = projectIdentifier.toKey) with
  | some p => some p.2
  | none =>
    match table.find? (fun p => p.2.projectIdentifier = projectIdentifier) with
    | some p => some p.2
    | none => none

/-! ## Aggregation (gitlab-helpers.ts `collectMergeRequestRules` and the
three specialized collectors of the variant module) -/

/-- One entry of `changes.changes` (the fields the aggregation reads). -/
structure FileChange where
  new_path : Option String
  old_path : Option String
deriving DecidableEq, Repr

/-- JS `change.new_path || change.old_path`, then `.filter(Boolean)`:
`undefined`, `null` and the empty string are falsy. -/
def changePath (c : FileChange) : Option String :=
  let fallback := match c.old_path with
    | some s => if s = "" then none else some s
    | none => none
  match c.new_path with
  | some s => if s = "" then fallback else some s
  | none => fallback

/-- JS `filePath.split('/').pop() || filePath` (a trailing slash makes
`pop()` the empty string, which is falsy). -/
def baseName (filePath : String) : String :=
  let last := String.mk ((splitOnChar '/' filePath.toList).getLastD [])
  if last = "" then filePath else last

/-- The fields of the merge-request object the aggregation reads:
`mr.project?.path_with_namespace || mr.project_id`. -/
structure MergeRequestInfo where
  path_with_namespace : Option String
  project_id : Nat
deriving DecidableEq, Repr

/-- The project identifier handed to `getProjectSpecificRules`. -/
def mrProjectKey (mr : MergeRequestInfo) : ProjId :=
  match mr.path_with_namespace with
  | some s => if s = "" then .num mr.project_id else .str s
  | none => .num mr.project_id

/-- The universal rule set of `collectMergeRequestRules`:
`getApplicableRules('', ['*'], true).filter(rule =>
rule.projectTypes?.includes('*'))` — a closed value. -/
def universalRules : List CodeReviewRule :=
  (getApplicableRules "" ["*"] true).filter fun rule =>
    decide ("*" ∈ rule.projectTypes.getD [])

/-- The `detectedTypes` array after the in-place
`detectedTypes.push(...additionalTypes)` of `collectMergeRequestRules`
(the caller-visible mutation). -/
def detectedTypesAfterConfig (cfg : ProjectSpecificConfig) (detectedTypes : List String) :
    List String :=
  match cfg.additionalProjectTypes with
  | some adds => detectedTypes ++ adds.filter fun t => decide (t ∉ detectedTypes)
  | none => detectedTypes

/-- The `defaultRules` value after the project-configuration step: the
re-fetch with the enlarged type set (when `additionalProjectTypes` is
present — when it is absent the enlarged set equals the original one, so
re-fetching unconditionally is the same value), then the exclusion filter,
which runs only when `enableDefaultRules !== false` and
`excludeDefaultRules` is a non-empty array. -/
def defaultRulesAfterConfig (cfg : ProjectSpecificConfig) (detectedTypes : List String) :
    List CodeReviewRule :=
  let base := getDefaultRulesForProjectTypes (detectedTypesAfterConfig cfg detectedTypes)
  if cfg.enableDefaultRules ≠ some false ∧ cfg.excludeDefaultRules.getD [] ≠ [] then
    base.filter fun rule => decide (rule.id ∉ cfg.excludeDefaultRules.getD [])
  else base

/-- Result record of `collectMergeRequestRules`; `detectedTypesOut`
models the in-place mutation of the caller-supplied `detectedTypes`. -/
structure MRRulesResult where
  allRules : List CodeReviewRule
  projectSpecificRules : List CodeReviewRule
  fileSpecificRules : List CodeReviewRule
  hasProjectConfig : Bool
  projectConfig : Option ProjectSpecificConfig
  detectedTypesOut : List String
deriving DecidableEq, Repr

/-- The file-specific rule set of `collectMergeRequestRules`: per changed
file, `getApplicableRules(fileName, detectedTypes, false)` on the base
name, merged; `[]` when the change list is empty. -/
def fileSpecificRulesFor (changes : List FileChange) (detectedTypes : List String) :
    List CodeReviewRule :=
  if changes ≠ [] then
    mergeRuleSets ((changes.filterMap changePath).map fun filePath =>
      getApplicableRules (baseName filePath) detectedTypes false)
  else []

/-- Embeds `collectMergeRequestRules(mr, changes, detectedTypes)`,
parameterized by the effective `PROJECT_SPECIFIC_RULES` table.  The final
merge is, verbatim from the source,
`mergeRuleSets(projectSpecificRules, fileSpecificRules, defaultRules,
universalRules)` — note `mergeRuleSets` overwrites on key collision, so a
later argument wins on content. -/
def collectMergeRequestRules (table : List (String × ProjectSpecificConfig))
    (mr : MergeRequestInfo) (changes : List FileChange) (detectedTypes : List String) :
    MRRulesResult :=
  let fileSpecificRules := fileSpecificRulesFor changes detectedTypes
  match getProjectSpecificRules table (mrProjectKey mr) with
  | some cfg =>
      { allRules := mergeRuleSets [cfg.rules, fileSpecificRules,
          defaultRulesAfterConfig cfg detectedTypes, universalRules]
        projectSpecificRules := cfg.rules
        fileSpecificRules := fileSpecificRules
        hasProjectConfig := true
        projectConfig := some cfg
        detectedTypesOut := detectedTypesAfterConfig cfg detectedTypes }
  | none =>
      { allRules := mergeRuleSets [[], fileSpecificRules,
          getDefaultRulesForProjectTypes detectedTypes, universalRules]
        projectSpecificRules := []
        fileSpecificRules := fileSpecificRules
        hasProjectConfig := false
        projectConfig := none
        detectedTypesOut := detectedTypes }

/-- Result record of the style/general-security collectors. -/
structure ProfileRulesResult where
  allRules : List CodeReviewRule
  projectSpecificRules : List CodeReviewRule
  hasProjectConfig : Bool
  projectConfig : Option ProjectSpecificConfig
deriving DecidableEq, Repr

/-- Embeds `collectCodeStyleOptimizationRules` (changes are accepted but
unused by the source body). -/
def collectCodeStyleOptimizationRules (table : List (String × ProjectSpecificConfig))
    (mr : MergeRequestInfo) (detectedTypes : List String) : ProfileRulesResult :=
  let codeStyleRules := getCodeStyleOptimizationRules detectedTypes
  match getProjectSpecificRules table (mrProjectKey mr) with
  | some cfg =>
      let projectSpecificRules := cfg.rules.filter fun rule =>
        decide (rule.category = .style)
          || (decide (rule.category = .bestPractice) && jsIncludes rule.id "style")
      { allRules := mergeRuleSets [projectSpecificRules, codeStyleRules]
        projectSpecificRules := projectSpecificRules
        hasProjectConfig := true
        projectConfig := some cfg }
  | none =>
      { allRules := mergeRuleSets [[], codeStyleRules]
        projectSpecificRules := []
        hasProjectConfig := false
        projectConfig := none }

/-- Embeds `collectGeneralSecurityScanRules`. -/
def collectGeneralSecurityScanRules (table : List (String × ProjectSpecificConfig))
    (mr : MergeRequestInfo) (detectedTypes : List String) : ProfileRulesResult :=
  let securityRules := getGeneralSecurityScanRules detectedTypes
  match getProjectSpecificRules table (mrProjectKey mr) with
  | some cfg =>
      let projectSpecificRules := cfg.rules.filter fun rule =>
        decide (rule.category = .security)
      { allRules := mergeRuleSets [projectSpecificRules, securityRules]
        projectSpecificRules := projectSpecificRules
        hasProjectConfig := true
        projectConfig := some cfg }
  | none =>
      { allRules := mergeRuleSets [[], securityRules]
        projectSpecificRules := []
        hasProjectConfig := false
        projectConfig := none }

/-- Result record of `collectProfessionalSecurityScanRules`. -/
structure ProfessionalRulesResult where
  allRules : List CodeReviewRule
  projectSpecificRules : List CodeReviewRule
  customRules : List CodeReviewRule
  hasProjectConfig : Bool
  projectConfig : Option ProjectSpecificConfig
deriving DecidableEq, Repr

/-- Embeds `collectProfessionalSecurityScanRules`. -/
def collectProfessionalSecurityScanRules (table : List (String × ProjectSpecificConfig))
    (mr : MergeRequestInfo) (detectedTypes : List String)
    (customRules : Option (List CodeReviewRule)) : ProfessionalRulesResult :=
  let professionalSecurityRules := getProfessionalSecurityScanRules detectedTypes customRules
  match getProjectSpecificRules table (mrProjectKey mr) with
  | some cfg =>
      let projectSpecificRules := cfg.rules.filter fun rule =>
        decide (rule.category = .security)
      { allRules := mergeRuleSets [projectSpecificRules, professionalSecurityRules]
        projectSpecificRules := projectSpecificRules
        customRules := customRules.getD []
        hasProjectConfig := true
        projectConfig := some cfg }
  | none =>
      { allRules := mergeRuleSets [[], professionalSecurityRules]
        projectSpecificRules := []
        customRules := customRules.getD []
        hasProjectConfig := false
        projectConfig := none }

/-! ## The merge-request-context detector (lark.ts `detectProjectTypes`) -/

/-- The fields of the lark.ts merge-request object that
`detectProjectTypes` reads. -/
structure LarkMergeRequest where
  project_name : Option String
  source_branch : Option String
  title : Option String
  description : Option String
deriving DecidableEq, Repr

/-- The `keywordPatterns` table of lark.ts `detectProjectTypes`. -/
def larkKeywordPatterns : List (List String × String) := [
  (["typescript", "tsx", "ts"], "typescript"),
  (["react", "jsx"], "react"),
  (["node", "npm", "nodejs"], "node"),
  (["go", "golang"], "go"),
  (["python", "py", "pip"], "python"),
  (["rust", "rs", "cargo"], "rust"),
  (["shell", "sh", "bash", "zsh"], "sh"),
  (["backend", "api", "server"], "backend"),
  (["database", "sql", "migration"], "database")
]

/-- The `extensionPatterns` table (file-extension `endsWith` checks). -/
def larkExtensionPatterns : List (List String × List String) := [
  ([".ts", ".tsx"], ["typescript"]),
  ([".jsx", ".tsx"], ["react"]),
  ([".js", ".mjs"], ["javascript", "node"]),
  ([".go"], ["go"]),
  ([".py"], ["python"]),
  ([".rs"], ["rust"]),
  ([".sh", ".bash", ".zsh"], ["sh"]),
  ([".sql"], ["database"])
]

/-- The `filePatterns` table (file-name `includes` checks). -/
def larkFilePatterns : List (List String × List String) := [
  (["package.json", "node_modules"], ["node"]),
  (["tsconfig.json"], ["typescript"]),
  (["go.mod", "go.sum"], ["go"]),
  (["requirements.txt", "pyproject.toml", "setup.py"], ["python"]),
  (["Cargo.toml", "Cargo.lock"], ["rust"]),
  (["Dockerfile", "docker-compose"], ["backend"]),
  (["migration", "schema"], ["database"])
]

/-- The final fallback of lark.ts `detectProjectTypes`: push the
wildcard tag when the collected set is empty. -/
def wildcardFallback (types : List String) : List String :=
  if types = [] then ["*"] else types

/-- Embeds lark.ts `detectProjectTypes(mr, changes?)`: keyword detection
over the lower-cased MR context, then (when a non-empty change list is
present) extension- and file-name-pattern detection per changed file, the
react/tsx coupling, and the final wildcard fallback for an empty set.
The JS `Set` is modelled as an insertion-ordered duplicate-free list. -/
def detectProjectTypes (mr : LarkMergeRequest) (changes : Option (List FileChange)) :
    List String :=
  let analysisContext := jsToLower (String.intercalate " "
    [mr.project_name.getD "", mr.source_branch.getD "",
     mr.title.getD "", mr.description.getD ""])
  let s0 := larkKeywordPatterns.foldl (fun acc kp =>
    if kp.1.any (fun keyword => jsIncludes analysisContext keyword) then addToSet acc kp.2
    else acc) []
  let filePaths : List String := match changes with
    | some cs => if cs ≠ [] then cs.filterMap changePath else []
    | none => []
  let s1 : List String := match changes with
    | some cs =>
      if cs ≠ [] then
        filePaths.foldl (fun acc filePath =>
          let acc := larkExtensionPatterns.foldl (fun acc ep =>
            if ep.1.any (fun ext => jsEndsWith filePath ext) then ep.2.foldl addToSet acc
            else acc) acc
          larkFilePatterns.foldl (fun acc fp =>
            if fp.1.any (fun pat => jsIncludes filePath pat) then fp.2.foldl addToSet acc
            else acc) acc) s0
      else s0
    | none => s0
  let s2 := if decide ("react" ∈ s1) && filePaths.any (fun fp => jsEndsWith fp ".tsx") then
      addToSet s1 "typescript"
    else s1
  wildcardFallback s2

/-! ## Derived definitions used in statements -/

/-- Rules of severity `s`, in list order. -/
def sevFilter (s : Severity) (l : List CodeReviewRule) : List CodeReviewRule :=
  l.filter fun r => decide (r.severity = s)

/-- Plain key lookup in a configuration record. -/
def lookupKey (table : List (String × ProjectSpecificConfig)) (k : String) :
    Option ProjectSpecificConfig :=
  (table.find? fun p => p.1 = k).map Prod.snd

/-! ## Concrete instances used in statements -/

/-- The effective configuration table when no external configuration file
exists on the search path. -/
def builtinOnlyTable : List (String × ProjectSpecificConfig) :=
  PROJECT_SPECIFIC_RULES (fun _ => false) (fun _ => none)

/-- The catalog entry `no-hardcoded-secrets` (a universal rule). -/
def ruleNoHardcodedSecrets : CodeReviewRule :=
  { id := "no-hardcoded-secrets", title := "No Hardcoded Secrets",
    description := "Avoid hardcoding API keys, passwords, or sensitive data in source code",
    severity := .error, category := .security,
    applicableFiles := some ["*"], projectTypes := some ["*"] }

/-- The catalog entry `go-error-handling` (a go-scoped rule). -/
def ruleGoErrorHandling : CodeReviewRule :=
  { id := "go-error-handling", title := "Go Error Handling",
    description := "Always handle errors explicitly, avoid ignoring them with _",
    severity := .error, category := .bestPractice,
    applicableFiles := some ["*.go"], projectTypes := some ["go"] }

/-- The catalog entry `ts-strict-mode`. -/
def ruleTsStrictMode : CodeReviewRule :=
  { id := "ts-strict-mode", title := "TypeScript Strict Mode",
    description := "Ensure TypeScript strict mode is enabled for better type safety",
    severity := .warning, category := .bestPractice,
    applicableFiles := some ["*.ts", "*.tsx"],
    projectTypes := some ["typescript", "react", "node"] }

/-- A project-specific rule sharing the id of the universal catalog rule
`no-hardcoded-secrets` but with different content. -/
def c1CustomRule : CodeReviewRule :=
  { id := "no-hardcoded-secrets", title := "Custom Secret Rule",
    description := "Project-specific secret handling policy",
    severity := .error, category := .security,
    applicableFiles := some ["*"], projectTypes := some ["*"] }

/-- An external project configuration whose own rule overrides the
universal catalog rule `no-hardcoded-secrets`. -/
def c1Config : ProjectSpecificConfig :=
  { projectIdentifier := .str "proj/x", projectName := "Project X",
    description := none, rules := [c1CustomRule],
    enableDefaultRules := none, excludeDefaultRules := none,
    additionalProjectTypes := none }

/-- An effective table produced by a well-formed external configuration
file found at the first candidate path. -/
def c1Table : List (String × ProjectSpecificConfig) :=
  PROJECT_SPECIFIC_RULES (fun p => p = "project-rules.config.json")
    (fun p => if p = "project-rules.config.json" then
        some { projects := some [("proj/x", c1Config)] }
      else none)

def c1MR : MergeRequestInfo :=
  { path_with_namespace := some "proj/x", project_id := 100 }

/-- A placeholder configuration (used only as a `headD` default). -/
def dummyConfig : ProjectSpecificConfig :=
  { projectIdentifier := .num 0, projectName := "", description := none,
    rules := [], enableDefaultRules := none, excludeDefaultRules := none,
    additionalProjectTypes := none }

/-- The builtin `backend/api-service` configuration (first builtin entry),
which excludes the default rule `no-any-type`. -/
def apiServiceConfig : ProjectSpecificConfig :=
  (BUILTIN_PROJECT_RULES.headD ("", dummyConfig)).2

def c2MR : MergeRequestInfo :=
  { path_with_namespace := some "backend/api-service", project_id := 2 }

def c2Changes : List FileChange :=
  [{ new_path := some "src/a.ts", old_path := none }]

def c4MR : MergeRequestInfo :=
  { path_with_namespace := some "blockchain/smart-contracts", project_id := 4 }

/-- A minimal external project configuration delivered by the second
candidate configuration path. -/
def c6Config : ProjectSpecificConfig :=
  { projectIdentifier := .str "ext/project", projectName := "External Project",
    description := none, rules := [], enableDefaultRules := none,
    excludeDefaultRules := none, additionalProjectTypes := none }

/-- A file system on which every candidate configuration path exists. -/
def c6Exists : String → Bool := fun _ => true

/-- Parse results: the first candidate file is malformed, the second one
parses to a document configuring `ext/project`. -/
def c6Parse : String → Option ExternalDoc := fun p =>
  if p = "project-rules.config.json" then none
  else some { projects := some [("ext/project", c6Config)] }

/-- A project configuration with a non-empty `excludeDefaultRules` list
naming one catalog rule of each specialized profile category. -/
def c7Config : ProjectSpecificConfig :=
  { projectIdentifier := .str "sec/app", projectName := "Sec App",
    description := none, rules := [], enableDefaultRules := some true,
    excludeDefaultRules := some ["no-hardcoded-secrets",
      "code-style-consistent-naming", "professional-logging-prohibition"],
    additionalProjectTypes := none }

def c7Table : List (String × ProjectSpecificConfig) :=
  recordSpread BUILTIN_PROJECT_RULES [("sec/app", c7Config)]

def c7MR : MergeRequestInfo :=
  { path_with_namespace := some "sec/app", project_id := 7 }

/-- The right-hand side of the C3 claim, following the specification
words: a rule is applicable iff (its projectTypes contains the wildcard,
or intersects the given types, or it declares no project-type
restriction) and (its applicableFiles matches the target file, or
includeUniversal is true and its applicableFiles is the wildcard/any).
This definition follows the spec, for comparison against the source
embedding `getApplicableRules`. -/
def specC3Applicable (rule : CodeReviewRule) (fileName : String)
    (types : List String) (includeUniversal : Bool) : Prop :=
  ("*" ∈ rule.projectTypes.getD []
      ∨ (∃ t ∈ rule.projectTypes.getD [], t ∈ types)
      ∨ rule.projectTypes.getD [] = [])
  ∧ (appliesToFile rule fileName = true
      ∨ (includeUniversal = true ∧ "*" ∈ rule.applicableFiles.getD []))

instance (rule : CodeReviewRule) (fileName : String) (types : List String)
    (includeUniversal : Bool) :
    Decidable (specC3Applicable rule fileName types includeUniversal) := by
  unfold specC3Applicable
  exact inferInstance

/-! ## Lemmas about the keyed merge -/

theorem map_fst_mapSet (m : List (String × CodeReviewRule)) (k : String) (v : CodeReviewRule) :
    (mapSet m k v).map Prod.fst =
      if k ∈ m.map Prod.fst then m.map Prod.fst else m.map Prod.fst ++ [k] := by
  unfold mapSet
  split
  · next h =>
    simp only [if_pos h, List.map_map]
    apply List.map_congr_left
    intro p _
    by_cases hp : p.1 = k
    · simp [Function.comp, hp]
    · simp [Function.comp, hp]
  · next h =>
    simp [if_neg h]

theorem mem_map_fst_mapSet (m : List (String × CodeReviewRule)) (k : String)
    (v : CodeReviewRule) (a : String) :
    a ∈ (mapSet m k v).map Prod.fst ↔ a ∈ m.map Prod.fst ∨ a = k := by
  rw [map_fst_mapSet]
  split
  · next h =>
    constructor
    · exact Or.inl
    · rintro (ha | rfl)
      · exact ha
      · exact h
  · simp

theorem nodup_map_fst_mapSet (m : List (String × CodeReviewRule)) (k : String)
    (v : CodeReviewRule) (h : (m.map Prod.fst).Nodup) :
    ((mapSet m k v).map Prod.fst).Nodup := by
  rw [map_fst_mapSet]
  split
  · exact h
  · next hk =>
    simp only [List.nodup_append, List.nodup_singleton, List.disjoint_singleton]
    exact ⟨h, trivial, hk⟩

theorem snd_id_mapSet (m : List (String × CodeReviewRule)) (v : CodeReviewRule)
    (hm : ∀ p ∈ m, (Prod.snd p).id = p.1) :
    ∀ p ∈ mapSet m v.id v, (Prod.snd p).id = p.1 := by
  intro p hp
  unfold mapSet at hp
  split at hp
  · obtain ⟨q, hq, rfl⟩ := List.mem_map.mp hp
    by_cases hqk : q.1 = v.id
    · simp [hqk]
    · simp only [if_neg hqk]
      exact hm q hq
  · rcases List.mem_append.mp hp with h | h
    · exact hm p h
    · simp only [List.mem_singleton] at h
      subst h
      rfl

theorem mem_map_fst_insertRules (rs : List CodeReviewRule) :
    ∀ (m : List (String × CodeReviewRule)) (a : String),
      a ∈ (insertRules m rs).map Prod.fst ↔
        a ∈ m.map Prod.fst ∨ ∃ r ∈ rs, r.id = a := by
  induction rs with
  | nil => intro m a; simp [insertRules]
  | cons r rs ih =>
    intro m a
    show a ∈ (insertRules (mapSet m r.id r) rs).map Prod.fst ↔ _
    rw [ih, mem_map_fst_mapSet]
    constructor
    · rintro ((ha | rfl) | ⟨x, hx, rfl⟩)
      · exact Or.inl ha
      · exact Or.inr ⟨r, List.mem_cons_self r rs, rfl⟩
      · exact Or.inr ⟨x, List.mem_cons_of_mem r hx, rfl⟩
    · rintro (ha | ⟨x, hx, rfl⟩)
      · exact Or.inl (Or.inl ha)
      · rcases List.mem_cons.mp hx with rfl | hx
        · exact Or.inl (Or.inr rfl)
        · exact Or.inr ⟨x, hx, rfl⟩

theorem nodup_map_fst_insertRules (rs : List CodeReviewRule) :
    ∀ (m : List (String × CodeReviewRule)), (m.map Prod.fst).Nodup →
      ((insertRules m rs).map Prod.fst).Nodup := by
  induction rs with
  | nil => intro m h; exact h
  | cons r rs ih =>
    intro m h
    exact ih (mapSet m r.id r) (nodup_map_fst_mapSet m r.id r h)

theorem snd_id_insertRules (rs : List CodeReviewRule) :
    ∀ (m : List (String × CodeReviewRule)), (∀ p ∈ m, (Prod.snd p).id = p.1) →
      ∀ p ∈ insertRules m rs, (Prod.snd p).id = p.1 := by
  induction rs with
  | nil => intro m h; exact h
  | cons r rs ih =>
    intro m h
    exact ih (mapSet m r.id r) (snd_id_mapSet m r h)

theorem mem_map_fst_mergeFold (sets : List (List CodeReviewRule)) :
    ∀ (m : List (String × CodeReviewRule)) (a : String),
      a ∈ ((sets.foldl insertRules m).map Prod.fst) ↔
        a ∈ m.map Prod.fst ∨ ∃ rs ∈ sets, ∃ r ∈ rs, r.id = a := by
  induction sets with
  | nil => intro m a; simp
  | cons rs sets ih =>
    intro m a
    rw [List.foldl_cons, ih, mem_map_fst_insertRules]
    constructor
    · rintro ((ha | hr) | ⟨x, hx, hr⟩)
      · exact Or.inl ha
      · exact Or.inr ⟨rs, List.mem_cons_self rs sets, hr⟩
      · exact Or.inr ⟨x, List.mem_cons_of_mem rs hx, hr⟩
    · rintro (ha | ⟨x, hx, hr⟩)
      · exact Or.inl (Or.inl ha)
      · rcases List.mem_cons.mp hx with rfl | hx
        · exact Or.inl (Or.inr hr)
        · exact Or.inr ⟨x, hx, hr⟩

theorem nodup_map_fst_mergeFold (sets : List (List CodeReviewRule)) :
    ∀ (m : List (String × CodeReviewRule)), (m.map Prod.fst).Nodup →
      ((sets.foldl insertRules m).map Prod.fst).Nodup := by
  induction sets with
  | nil => intro m h; exact h
  | cons rs sets ih =>
    intro m h
    exact ih (insertRules m rs) (nodup_map_fst_insertRules rs m h)

theorem snd_id_mergeFold (sets : List (List CodeReviewRule)) :
    ∀ (m : List (String × CodeReviewRule)), (∀ p ∈ m, (Prod.snd p).id = p.1) →
      ∀ p ∈ sets.foldl insertRules m, (Prod.snd p).id = p.1 := by
  induction sets with
  | nil => intro m h; exact h
  | cons rs sets ih =>
    intro m h
    exact ih (insertRules m rs) (snd_id_insertRules rs m h)

theorem map_id_mergeRuleSets (sets : List (List CodeReviewRule)) :
    (mergeRuleSets sets).map (fun r => r.id) = (sets.foldl insertRules []).map Prod.fst := by
  unfold mergeRuleSets
  rw [List.map_map]
  apply List.map_congr_left
  intro p hp
  exact snd_id_mergeFold sets [] (by simp) p hp

theorem mem_id_mergeRuleSets (sets : List (List CodeReviewRule)) (a : String) :
    a ∈ (mergeRuleSets sets).map (fun r => r.id) ↔ ∃ rs ∈ sets, ∃ r ∈ rs, r.id = a := by
  rw [map_id_mergeRuleSets, mem_map_fst_mergeFold]
  simp

theorem nodup_id_mergeRuleSets (sets : List (List CodeReviewRule)) :
    ((mergeRuleSets sets).map (fun r => r.id)).Nodup := by
  rw [map_id_mergeRuleSets]
  exact nodup_map_fst_mergeFold sets [] (by simp)

/-! ## Lemmas about the severity sort -/

theorem sevFilter_cons (s : Severity) (a : CodeReviewRule) (l : List CodeReviewRule) :
    sevFilter s (a :: l) =
      if a.severity = s then a :: sevFilter s l else sevFilter s l := by
  simp only [sevFilter, List.filter_cons]
  by_cases h : a.severity = s <;> simp [h]

theorem mem_sevFilter_severity {s : Severity} {l : List CodeReviewRule}
    {b : CodeReviewRule} (hb : b ∈ sevFilter s l) : b.severity = s := by
  simp only [sevFilter, List.mem_filter, decide_eq_true_eq] at hb
  exact hb.2

theorem orderedInsert_of_forall_le (a : CodeReviewRule) (l : List CodeReviewRule)
    (h : ∀ b ∈ l, ruleSevLE a b) :
    l.orderedInsert ruleSevLE a = a :: l := by
  cases l with
  | nil => rfl
  | cons b l =>
    simp only [List.orderedInsert]
    rw [if_pos (h b (List.mem_cons_self b l))]

theorem orderedInsert_append_of_forall_not (a : CodeReviewRule)
    (xs : List CodeReviewRule) :
    ∀ l : List CodeReviewRule, (∀ b ∈ xs, ¬ ruleSevLE a b) →
      (xs ++ l).orderedInsert ruleSevLE a = xs ++ l.orderedInsert ruleSevLE a := by
  induction xs with
  | nil => intro l _; rfl
  | cons x xs ih =>
    intro l h
    have hx : ¬ ruleSevLE a x := h x (List.mem_cons_self x xs)
    simp only [List.cons_append, List.orderedInsert, List.append_eq]
    rw [if_neg hx, ih l fun b hb => h b (List.mem_cons_of_mem x hb)]

theorem insertionSort_sevFilters (l : List CodeReviewRule) :
    l.insertionSort ruleSevLE =
      sevFilter .error l ++ sevFilter .warning l ++ sevFilter .info l := by
  induction l with
  | nil => rfl
  | cons a l ih =>
    simp only [List.insertionSort, ih]
    cases ha : a.severity with
    | error =>
      rw [orderedInsert_of_forall_le a _ (fun b _ => by
        show severityOrder a.severity ≤ severityOrder b.severity
        rw [ha]
        exact Nat.zero_le _)]
      simp [sevFilter_cons, ha]
    | warning =>
      rw [List.append_assoc]
      rw [orderedInsert_append_of_forall_not a _ _ (fun b hb => by
        show ¬ severityOrder a.severity ≤ severityOrder b.severity
        rw [ha, mem_sevFilter_severity hb]
        decide)]
      rw [orderedInsert_of_forall_le a _ (fun b hb => by
        show severityOrder a.severity ≤ severityOrder b.severity
        rcases List.mem_append.mp hb with h | h
        · rw [ha, mem_sevFilter_severity h]
        · rw [ha, mem_sevFilter_severity h]
          decide)]
      simp [sevFilter_cons, ha]
    | info =>
      rw [orderedInsert_append_of_forall_not a _ _ (fun b hb => by
        show ¬ severityOrder a.severity ≤ severityOrder b.severity
        rcases List.mem_append.mp hb with h | h
        · rw [ha, mem_sevFilter_severity h]
          decide
        · rw [ha, mem_sevFilter_severity h]
          decide)]
      rw [orderedInsert_of_forall_le a _ (fun b hb => by
        show severityOrder a.severity ≤ severityOrder b.severity
        rw [ha, mem_sevFilter_severity hb])]
      simp [sevFilter_cons, ha]

theorem getApplicableRules_eq_sevFilters (fileName : String) (projectTypes : List String)
    (includeUniversal : Bool) :
    getApplicableRules fileName projectTypes includeUniversal =
      sevFilter .error (applicableCandidates fileName projectTypes includeUniversal)
        ++ sevFilter .warning (applicableCandidates fileName projectTypes includeUniversal)
        ++ sevFilter .info (applicableCandidates fileName projectTypes includeUniversal) :=
  insertionSort_sevFilters _

theorem mem_getApplicableRules (fileName : String) (projectTypes : List String)
    (includeUniversal : Bool) (r : CodeReviewRule) :
    r ∈ getApplicableRules fileName projectTypes includeUniversal ↔
      r ∈ CODE_REVIEW_RULES
        ∧ appliesToProjectType r projectTypes = true
        ∧ (appliesToFile r fileName = true ∨ includeUniversal = true) := by
  unfold getApplicableRules
  rw [List.mem_insertionSort]
  unfold applicableCandidates
  simp [List.mem_filter]

/-! ## Lemmas about the configuration overlay -/

theorem lookupKey_cons (p : String × ProjectSpecificConfig)
    (rest : List (String × ProjectSpecificConfig)) (k : String) :
    lookupKey (p :: rest) k = if p.1 = k then some p.2 else lookupKey rest k := by
  unfold lookupKey
  rw [List.find?_cons]
  by_cases h : p.1 = k <;> simp [h]

theorem lookupKey_map_replace_ne (kv : String × ProjectSpecificConfig) :
    ∀ (base : List (String × ProjectSpecificConfig)) (k : String), k ≠ kv.1 →
      lookupKey (base.map fun p => if p.1 = kv.1 then kv else p) k = lookupKey base k := by
  intro base
  induction base with
  | nil => intro k _; rfl
  | cons p rest ih =>
    intro k hk
    simp only [List.map_cons]
    rw [lookupKey_cons, lookupKey_cons]
    by_cases hp : p.1 = kv.1
    · rw [if_pos hp]
      have h1 : ¬ kv.1 = k := fun h => hk h.symm
      have h2 : ¬ p.1 = k := hp ▸ h1
      rw [if_neg h1, if_neg h2]
      exact ih k hk
    · rw [if_neg hp]
      by_cases hpk : p.1 = k
      · rw [if_pos hpk, if_pos hpk]
      · rw [if_neg hpk, if_neg hpk]
        exact ih k hk

theorem lookupKey_map_replace_self (kv : String × ProjectSpecificConfig) :
    ∀ base : List (String × ProjectSpecificConfig), kv.1 ∈ base.map Prod.fst →
      lookupKey (base.map fun p => if p.1 = kv.1 then kv else p) kv.1 = some kv.2 := by
  intro base
  induction base with
  | nil => intro h; cases h
  | cons p rest ih =>
    intro hmem
    simp only [List.map_cons]
    rw [lookupKey_cons]
    by_cases hp : p.1 = kv.1
    · simp [hp]
    · rw [if_neg (by rw [if_neg hp]; exact hp)]
      apply ih
      rcases List.mem_cons.mp hmem with h | h
      · exact absurd h.symm hp
      · exact h

theorem lookupKey_append_single_ne (kv : String × ProjectSpecificConfig) :
    ∀ (base : List (String × ProjectSpecificConfig)) (k : String), k ≠ kv.1 →
      lookupKey (base ++ [kv]) k = lookupKey base k := by
  intro base
  induction base with
  | nil =>
    intro k hk
    simp only [List.nil_append]
    rw [lookupKey_cons, if_neg (fun h => hk h.symm)]
  | cons p rest ih =>
    intro k hk
    simp only [List.cons_append]
    rw [lookupKey_cons, lookupKey_cons]
    by_cases hp : p.1 = k
    · rw [if_pos hp, if_pos hp]
    · rw [if_neg hp, if_neg hp]
      exact ih k hk

theorem lookupKey_append_single_self (kv : String × ProjectSpecificConfig) :
    ∀ base : List (String × ProjectSpecificConfig), kv.1 ∉ base.map Prod.fst →
      lookupKey (base ++ [kv]) kv.1 = some kv.2 := by
  intro base
  induction base with
  | nil =>
    intro _
    simp only [List.nil_append]
    rw [lookupKey_cons, if_pos rfl]
  | cons p rest ih =>
    intro hmem
    simp only [List.map_cons, List.mem_cons] at hmem
    push_neg at hmem
    simp only [List.cons_append]
    rw [lookupKey_cons, if_neg (fun h => hmem.1 h.symm)]
    exact ih hmem.2

theorem lookupKey_spreadStep (base : List (String × ProjectSpecificConfig))
    (kv : String × ProjectSpecificConfig) (k : String) :
    lookupKey (spreadStep base kv) k =
      if k = kv.1 then some kv.2 else lookupKey base k := by
  by_cases hk : k = kv.1
  · subst hk
    rw [if_pos rfl]
    unfold spreadStep
    by_cases hmem : kv.1 ∈ base.map Prod.fst
    · rw [if_pos hmem]
      exact lookupKey_map_replace_self kv base hmem
    · rw [if_neg hmem]
      exact lookupKey_append_single_self kv base hmem
  · rw [if_neg hk]
    unfold spreadStep
    by_cases hmem : kv.1 ∈ base.map Prod.fst
    · rw [if_pos hmem]
      exact lookupKey_map_replace_ne kv base k hk
    · rw [if_neg hmem]
      exact lookupKey_append_single_ne kv base k hk

theorem lookupKey_recordSpread_not_mem (ov : List (String × ProjectSpecificConfig)) :
    ∀ (base : List (String × ProjectSpecificConfig)) (k : String),
      k ∉ ov.map Prod.fst →
      lookupKey (recordSpread base ov) k = lookupKey base k := by
  induction ov with
  | nil => intro base k _; rfl
  | cons kv rest ih =>
    intro base k hk
    simp only [List.map_cons, List.mem_cons] at hk
    push_neg at hk
    show lookupKey (recordSpread (spreadStep base kv) rest) k = _
    rw [ih (spreadStep base kv) k hk.2, lookupKey_spreadStep, if_neg hk.1]

theorem lookupKey_recordSpread_mem (ov : List (String × ProjectSpecificConfig)) :
    ∀ (base : List (String × ProjectSpecificConfig)) (k : String)
      (v : ProjectSpecificConfig), (ov.map Prod.fst).Nodup → (k, v) ∈ ov →
      lookupKey (recordSpread base ov) k = some v := by
  induction ov with
  | nil => intro base k v _ h; cases h
  | cons kv rest ih =>
    intro base k v hnd hmem
    simp only [List.map_cons, List.nodup_cons] at hnd
    rcases List.mem_cons.mp hmem with heq | hmem
    · have hk1 : kv.1 = k := by rw [← heq]
      show lookupKey (recordSpread (spreadStep base kv) rest) k = some v
      rw [lookupKey_recordSpread_not_mem rest (spreadStep base kv) k (hk1 ▸ hnd.1),
        lookupKey_spreadStep, if_pos hk1.symm, ← heq]
    · exact ih (spreadStep base kv) k v hnd.2 hmem

theorem loadExternalRules_go_eq (fsExists : String → Bool)
    (fsParse : String → Option ExternalDoc) :
    ∀ ps : List String,
      loadExternalRules.go fsExists fsParse ps =
        match ps.find? (fun p => fsExists p && (fsParse p).isSome) with
        | some p => ((fsParse p).getD { projects := none }).projects.getD []
        | none => [] := by
  intro ps
  induction ps with
  | nil => rfl
  | cons p rest ih =>
    show (if fsExists p then _ else _) = _
    rw [List.find?_cons]
    by_cases he : fsExists p
    · cases hp : fsParse p with
      | some doc => simp [he, hp]
      | none => simp [he, hp, ih]
    · simp [he, ih]

theorem loadExternalRules_eq (fsExists : String → Bool)
    (fsParse : String → Option ExternalDoc) :
    loadExternalRules fsExists fsParse =
      match configPaths.find? (fun p => fsExists p && (fsParse p).isSome) with
      | some p => ((fsParse p).getD { projects := none }).projects.getD []
      | none => [] :=
  loadExternalRules_go_eq fsExists fsParse configPaths

/-! ## Claim theorems -/

theorem wildcardFallback_ne_nil (l : List String) : wildcardFallback l ≠ [] := by
  unfold wildcardFallback
  split
  · simp
  · next h => exact h

set_option maxRecDepth 10000 in
/-- C1: the claim states that `collectMergeRequestRules` retains the
highest-precedence entry per rule id (project-specific > file-specific >
default > universal), so an id present in both the project config and the
universal set keeps the project-specific content.  In fact `mergeRuleSets`
is built on `Map.set`, whose later writes win: at this input the id
`no-hardcoded-secrets` is in both the project rules and the universal set,
and the retained entry is the universal catalog version, not the
project-specific one — contradicting the claim (and the priority stated by
the source comment and the repository documentation). -/
theorem c1_merge_precedence_bug :
    c1CustomRule ∈ (collectMergeRequestRules c1Table c1MR [] []).projectSpecificRules
    ∧ ruleNoHardcodedSecrets ∈ CODE_REVIEW_RULES
    ∧ ruleNoHardcodedSecrets ∈ universalRules
    ∧ ruleNoHardcodedSecrets ∈ (collectMergeRequestRules c1Table c1MR [] []).allRules
    ∧ c1CustomRule ∉ (collectMergeRequestRules c1Table c1MR [] []).allRules := by
  decide

set_option maxRecDepth 10000 in
/-- C2 (counterexample): the builtin `backend/api-service` configuration
excludes `no-any-type`, the id is not among the project-specific rules,
and yet it is present in `allRules` — it enters through the file-specific
set (changed file `src/a.ts`), which the exclusion step never filters.
This refutes the claim that an excluded id is absent from `allRules`
unless it is a project-specific rule. -/
theorem c2_exclusion_counterexample :
    (collectMergeRequestRules builtinOnlyTable c2MR c2Changes ["typescript"]).projectConfig
        = some apiServiceConfig
    ∧ "no-any-type" ∈ apiServiceConfig.excludeDefaultRules.getD []
    ∧ "no-any-type" ∈ (collectMergeRequestRules builtinOnlyTable c2MR c2Changes
        ["typescript"]).allRules.map (fun r => r.id)
    ∧ "no-any-type" ∉ (collectMergeRequestRules builtinOnlyTable c2MR c2Changes
        ["typescript"]).projectSpecificRules.map (fun r => r.id) := by
  decide

/-- C2 (amended): `excludeDefaultRules` filters only the default-rules
contribution.  An excluded id is absent from `allRules` provided it also
does not occur in the project-specific, file-specific, or universal
sets. -/
theorem c2_exclusion_scope_amended
    (table : List (String × ProjectSpecificConfig)) (mr : MergeRequestInfo)
    (changes : List FileChange) (detectedTypes : List String)
    (cfg : ProjectSpecificConfig) (ruleId : String)
    (hcfg : getProjectSpecificRules table (mrProjectKey mr) = some cfg)
    (hen : cfg.enableDefaultRules ≠ some false)
    (hne : cfg.excludeDefaultRules.getD [] ≠ [])
    (hid : ruleId ∈ cfg.excludeDefaultRules.getD [])
    (hps : ruleId ∉ cfg.rules.map (fun r => r.id))
    (hfs : ruleId ∉ (fileSpecificRulesFor changes detectedTypes).map (fun r => r.id))
    (hu : ruleId ∉ universalRules.map (fun r => r.id)) :
    ruleId ∉ (collectMergeRequestRules table mr changes detectedTypes).allRules.map
      (fun r => r.id) := by
  intro hmem
  simp only [collectMergeRequestRules, hcfg] at hmem
  rw [mem_id_mergeRuleSets] at hmem
  obtain ⟨rs, hrs, r, hr, hrid⟩ := hmem
  simp only [List.mem_cons, List.not_mem_nil, or_false] at hrs
  rcases hrs with rfl | rfl | rfl | rfl
  · exact hps (List.mem_map.mpr ⟨r, hr, hrid⟩)
  · exact hfs (List.mem_map.mpr ⟨r, hr, hrid⟩)
  · unfold defaultRulesAfterConfig at hr
    rw [if_pos ⟨hen, hne⟩] at hr
    have h2 := (List.mem_filter.mp hr).2
    simp only [decide_eq_true_eq] at h2
    exact h2 (by rw [hrid]; exact hid)
  · exact hu (List.mem_map.mpr ⟨r, hr, hrid⟩)

/-- C2 (witness): the amended exclusion property applied at the builtin
`backend/api-service` configuration with no changed files. -/
theorem c2_exclusion_scope_amended_witness :
    "no-any-type" ∉ (collectMergeRequestRules builtinOnlyTable c2MR []
      ["typescript"]).allRules.map (fun r => r.id) :=
  c2_exclusion_scope_amended builtinOnlyTable c2MR [] ["typescript"] apiServiceConfig
    "no-any-type" (by decide) (by decide) (by decide) (by decide) (by decide)
    (by decide) (by decide)

/-- C3 (counterexample): with `includeUniversal = true`,
`getApplicableRules` returns `go-error-handling` for target file `x.py`
although its `applicableFiles` (`*.go`) neither matches `x.py` nor is the
wildcard — the claimed iff (file matches, or includeUniversal and the
applicableFiles is the wildcard) is false at this input. -/
theorem c3_applicable_iff_counterexample :
    ruleGoErrorHandling ∈ CODE_REVIEW_RULES
    ∧ ruleGoErrorHandling ∈ getApplicableRules "x.py" ["go"] true
    ∧ ¬ specC3Applicable ruleGoErrorHandling "x.py" ["go"] true := by
  decide

/-- C3 (amended): a rule is returned iff it is in the catalog, its
projectTypes test passes, and (its applicableFiles matches the target
file OR `includeUniversal` is true — the file check is bypassed entirely,
regardless of the applicableFiles patterns). -/
theorem c3_applicable_iff_amended (fileName : String) (types : List String)
    (includeUniversal : Bool) (r : CodeReviewRule) :
    r ∈ getApplicableRules fileName types includeUniversal ↔
      r ∈ CODE_REVIEW_RULES
        ∧ appliesToProjectType r types = true
        ∧ (appliesToFile r fileName = true ∨ includeUniversal = true) :=
  mem_getApplicableRules fileName types includeUniversal r

set_option maxRecDepth 10000 in
/-- C4: the claim states that `enableDefaultRules = false` prevents
auto-detected default rules from applying.  At the builtin
`blockchain/smart-contracts` configuration (which sets it to `false`)
with detected type `go` and no changed files, the go default
`go-error-handling` is still in `allRules`, although it occurs in no
other source — `collectMergeRequestRules` never consults
`enableDefaultRules` except to gate the exclusion filter, contradicting
the documented meaning of the flag. -/
theorem c4_enable_default_rules_bug :
    (collectMergeRequestRules builtinOnlyTable c4MR [] ["go"]).projectConfig.map
        (fun cfg => cfg.enableDefaultRules) = some (some false)
    ∧ ruleGoErrorHandling ∈ (collectMergeRequestRules builtinOnlyTable c4MR [] ["go"]).allRules
    ∧ "go-error-handling" ∉ (collectMergeRequestRules builtinOnlyTable c4MR []
        ["go"]).projectSpecificRules.map (fun r => r.id)
    ∧ (collectMergeRequestRules builtinOnlyTable c4MR [] ["go"]).fileSpecificRules = []
    ∧ "go-error-handling" ∉ universalRules.map (fun r => r.id) := by
  decide

/-- C5 (counterexample): the file-path detector `detectProjectType` of
rules.ts returns the empty list on the empty input — it has no wildcard
fallback, refuting the claim that project-type detection never returns an
empty set. -/
theorem c5_detect_totality_counterexample : detectProjectType [] = [] := by
  decide

/-- C5 (amended): only the merge-request-context detector
`detectProjectTypes` of lark.ts has the totality property: its result is
never empty, and on an empty context with no changes it is exactly the
wildcard singleton.  The file-path detector `detectProjectType` of
rules.ts returns the empty list when nothing matches. -/
theorem c5_detect_totality_amended :
    (∀ (mr : LarkMergeRequest) (changes : Option (List FileChange)),
      detectProjectTypes mr changes ≠ [])
    ∧ detectProjectTypes
        { project_name := none, source_branch := none,
          title := none, description := none } none = ["*"] := by
  constructor
  · intro mr changes
    unfold detectProjectTypes
    exact wildcardFallback_ne_nil _
  · decide

set_option maxRecDepth 10000 in
/-- C6 (counterexample): on a file system where the first candidate path
exists but fails to parse and the second candidate parses, the loader
does NOT proceed with builtins only — it continues to the second
candidate and returns its projects, which then appear in the merged
table.  This refutes the claim that the loader stops at the first
existing file and falls back to builtins when that file fails to
parse. -/
theorem c6_loader_counterexample :
    c6Exists "project-rules.config.json" = true
    ∧ c6Parse "project-rules.config.json" = none
    ∧ loadExternalRules c6Exists c6Parse = [("ext/project", c6Config)]
    ∧ lookupKey (PROJECT_SPECIFIC_RULES c6Exists c6Parse) "ext/project" = some c6Config := by
  decide

/-- C6 (amended): the loader returns the `projects` of the FIRST
candidate path that exists and parses (continuing past candidates that
do not exist or fail to parse — a parse failure is logged and the loop
moves on), and the empty record when no candidate succeeds; the external
record is overlaid key-by-key on the builtin table: keys not present
externally keep their builtin values, and an external entry fully
replaces the builtin entry with the same key. -/
theorem c6_loader_amended :
    (∀ (fsExists : String → Bool) (fsParse : String → Option ExternalDoc),
      loadExternalRules fsExists fsParse =
        match configPaths.find? (fun p => fsExists p && (fsParse p).isSome) with
        | some p => ((fsParse p).getD { projects := none }).projects.getD []
        | none => [])
    ∧ (∀ (fsExists : String → Bool) (fsParse : String → Option ExternalDoc) (k : String),
        k ∉ (loadExternalRules fsExists fsParse).map Prod.fst →
        lookupKey (PROJECT_SPECIFIC_RULES fsExists fsParse) k = lookupKey BUILTIN_PROJECT_RULES k)
    ∧ (∀ (fsExists : String → Bool) (fsParse : String → Option ExternalDoc)
        (k : String) (v : ProjectSpecificConfig),
        ((loadExternalRules fsExists fsParse).map Prod.fst).Nodup →
        (k, v) ∈ loadExternalRules fsExists fsParse →
        lookupKey (PROJECT_SPECIFIC_RULES fsExists fsParse) k = some v) := by
  refine ⟨loadExternalRules_eq, ?_, ?_⟩
  · intro fsExists fsParse k hk
    exact lookupKey_recordSpread_not_mem _ _ _ hk
  · intro fsExists fsParse k v hnd hmem
    exact lookupKey_recordSpread_mem _ _ _ _ hnd hmem

/-- C6 (witness): the amended overlay property applied at the concrete
file system of the counterexample — `backend/api-service` is not
configured externally there, so its builtin entry survives. -/
theorem c6_loader_amended_witness :
    lookupKey (PROJECT_SPECIFIC_RULES c6Exists c6Parse) "backend/api-service" =
      lookupKey BUILTIN_PROJECT_RULES "backend/api-service" :=
  c6_loader_amended.2.1 c6Exists c6Parse "backend/api-service" (by decide)

set_option maxRecDepth 10000 in
/-- C7 (counterexample): a configuration excluding one catalog rule of
each profile category (`no-hardcoded-secrets` for general security,
`code-style-consistent-naming` for style,
`professional-logging-prohibition` for professional security) — every
one of the excluded ids still appears in the corresponding profile
collector result although none is a project-specific rule: the three
specialized collectors never consult `excludeDefaultRules`. -/
theorem c7_profiles_exclusion_counterexample :
    getProjectSpecificRules c7Table (mrProjectKey c7MR) = some c7Config
    ∧ c7Config.excludeDefaultRules.getD [] ≠ []
    ∧ "no-hardcoded-secrets" ∈ c7Config.excludeDefaultRules.getD []
    ∧ ruleNoHardcodedSecrets.category = .security
    ∧ "no-hardcoded-secrets" ∈ (collectGeneralSecurityScanRules c7Table c7MR
        []).allRules.map (fun r => r.id)
    ∧ "no-hardcoded-secrets" ∉ (collectGeneralSecurityScanRules c7Table c7MR
        []).projectSpecificRules.map (fun r => r.id)
    ∧ "code-style-consistent-naming" ∈ (collectCodeStyleOptimizationRules c7Table c7MR
        []).allRules.map (fun r => r.id)
    ∧ "professional-logging-prohibition" ∈ (collectProfessionalSecurityScanRules c7Table c7MR
        [] none).allRules.map (fun r => r.id) := by
  decide

/-- C7 (amended): the specialized profile collectors include the
project-specific rules of the matching category, but they apply no
exclusion step: every rule of the profile catalog set reaches the
returned `allRules` regardless of the project configuration. -/
theorem c7_profiles_amended (table : List (String × ProjectSpecificConfig))
    (mr : MergeRequestInfo) (types : List String) (r : CodeReviewRule) :
    (r ∈ getGeneralSecurityScanRules types →
      r.id ∈ (collectGeneralSecurityScanRules table mr types).allRules.map (fun x => x.id))
    ∧ (r ∈ getCodeStyleOptimizationRules types →
      r.id ∈ (collectCodeStyleOptimizationRules table mr types).allRules.map (fun x => x.id))
    ∧ (∀ customRules, r ∈ getProfessionalSecurityScanRules types customRules →
      r.id ∈ (collectProfessionalSecurityScanRules table mr types customRules).allRules.map
        (fun x => x.id)) := by
  refine ⟨?_, ?_, ?_⟩
  · intro hr
    unfold collectGeneralSecurityScanRules
    cases h : getProjectSpecificRules table (mrProjectKey mr) <;>
      exact (mem_id_mergeRuleSets _ _).mpr ⟨_, by simp, r, hr, rfl⟩
  · intro hr
    unfold collectCodeStyleOptimizationRules
    cases h : getProjectSpecificRules table (mrProjectKey mr) <;>
      exact (mem_id_mergeRuleSets _ _).mpr ⟨_, by simp, r, hr, rfl⟩
  · intro customRules hr
    unfold collectProfessionalSecurityScanRules
    cases h : getProjectSpecificRules table (mrProjectKey mr) <;>
      exact (mem_id_mergeRuleSets _ _).mpr ⟨_, by simp, r, hr, rfl⟩

/-- C7 (witness): the amended property applied at the counterexample
configuration and the catalog security rule `no-hardcoded-secrets`. -/
theorem c7_profiles_amended_witness :
    "no-hardcoded-secrets" ∈ (collectGeneralSecurityScanRules c7Table c7MR
      []).allRules.map (fun x => x.id) :=
  (c7_profiles_amended c7Table c7MR [] ruleNoHardcodedSecrets).1 (by decide)

/-- C8: the list returned by `getApplicableRules` is sorted ascending by
severity ordinal (every error-severity rule precedes every
warning-severity rule, which precedes every info-severity rule), and the
sort is stable: the result is exactly the error-severity candidates in
catalog order, then the warning-severity ones, then the info-severity
ones. -/
theorem c8_sorted_by_severity (fileName : String) (types : List String)
    (includeUniversal : Bool) :
    (getApplicableRules fileName types includeUniversal).Pairwise ruleSevLE
    ∧ getApplicableRules fileName types includeUniversal =
        sevFilter .error (applicableCandidates fileName types includeUniversal)
          ++ sevFilter .warning (applicableCandidates fileName types includeUniversal)
          ++ sevFilter .info (applicableCandidates fileName types includeUniversal) :=
  ⟨List.sorted_insertionSort ruleSevLE _,
   getApplicableRules_eq_sevFilters fileName types includeUniversal⟩

/-- C9: for every configuration table, merge request, change list and
detected-type list, the `allRules` list returned by
`collectMergeRequestRules` never contains two entries with the same rule
id (the merge map is keyed by id). -/
theorem c9_all_rules_dedup (table : List (String × ProjectSpecificConfig))
    (mr : MergeRequestInfo) (changes : List FileChange) (detectedTypes : List String) :
    ((collectMergeRequestRules table mr changes detectedTypes).allRules.map
      (fun r => r.id)).Nodup := by
  cases h : getProjectSpecificRules table (mrProjectKey mr) with
  | none =>
    simp only [collectMergeRequestRules, h]
    exact nodup_id_mergeRuleSets _
  | some cfg =>
    simp only [collectMergeRequestRules, h]
    exact nodup_id_mergeRuleSets _

set_option maxRecDepth 10000 in
/-- C10: the pattern compiler turns `*.ts` into the regex `.*.ts` whose
`.` matches any character, so the path `fonts` — which does not end in
`.ts` — is matched: `detectProjectType` reports `typescript` for the
single file `fonts`, and `getApplicableRules` likewise treats `fonts` as
matching the `*.ts`-style patterns of `ts-strict-mode` even with
`includeUniversal = false`. -/
theorem c10_wildcard_dot_confusion :
    regexTest "*.ts" "fonts" = true
    ∧ jsEndsWith "fonts" ".ts" = false
    ∧ detectProjectType ["fonts"] = ["typescript"]
    ∧ ruleTsStrictMode ∈ CODE_REVIEW_RULES
    ∧ ruleTsStrictMode.applicableFiles = some ["*.ts", "*.tsx"]
    ∧ ruleTsStrictMode ∈ getApplicableRules "fonts" ["typescript"] false := by
  decide

/-- C5 (witness): the totality half of the amended statement applied at a
concrete non-trivial merge-request context. -/
theorem c5_detect_totality_amended_witness :
    detectProjectTypes
      { project_name := some "payments", source_branch := some "feature/x",
        title := some "fix", description := none } none ≠ [] :=
  c5_detect_totality_amended.1 _ none
